import Mathlib

/-!
Verification development for the `bridge` repository (bridge.js and the
batch converter).  The bridge relays Minecraft server log lines to a chat
room over a WebSocket (with an in-memory FIFO queue, idle timeout and
reconnect logic), relays chat-room commands to the server through an HTTP
endpoint backed by RCON, and periodically renews the session cookie.

The JavaScript source is embedded shallowly:

* `handleLogLine` and its six regular expressions become explicit
  character-list parsers.  JavaScript `String.match` with an unanchored
  regex finds the leftmost starting position at which the whole regex
  matches; `searchFrom` reproduces that search, and each per-rule parser
  reproduces the regex with its greedy/backtracking behaviour at one
  starting position.
* The WebSocket state machine (`connect`, `flushMsgQueue`,
  `sendToChatroom`, `resetIdleTimer` and the transport event handlers)
  becomes a step function over an explicit `BridgeState`; `Date.now()`
  is an explicit `now : Nat` (milliseconds), timers are stored deadlines
  and their expiry is an explicit trace event.  `ws.send` may throw
  (a transport failure); since `flushMsgQueue` has no handler the
  exception aborts the loop, which the model expresses with a
  success oracle `sendOk`.
* The HTTP relay handler and the renewal flow become pure functions
  of their inputs, where the results of runtime collaborators
  (`JSON.parse`, `fetch`, the RCON client, `fs`) are explicit inputs.
-/

namespace Bridge

/-- JavaScript `\w`: ASCII letters, digits and underscore. -/
def isWordCh (c : Char) : Bool := c.isAlphanum || c == '_'

/-- JavaScript `.` (without the dotAll flag): any character except the
four line terminators. -/
def isDotCh (c : Char) : Bool :=
  !(c == '\n' || c == '\r' || c == '\u2028' || c == '\u2029')

/-- Consume an exact literal character sequence, returning the remainder. -/
def dropLit : List Char → List Char → Option (List Char)
  | [], cs => some cs
  | _ :: _, [] => none
  | p :: ps, c :: cs => if c = p then dropLit ps cs else none

/-- Maximal (greedy) run of characters satisfying `p`, together with the
rest of the input. -/
def munch0 (p : Char → Bool) : List Char → List Char × List Char
  | [] => ([], [])
  | c :: cs =>
    if p c then
      let r := munch0 p cs
      (c :: r.1, r.2)
    else ([], c :: cs)

/-- Greedy `+` on a character class: maximal run, at least one character. -/
def munch1 (p : Char → Bool) : List Char → Option (List Char × List Char)
  | [] => none
  | c :: cs =>
    if p c then
      let r := munch0 p cs
      some (c :: r.1, r.2)
    else none

/-- Leftmost-match search: try the parser at every start position, in
order, as JavaScript `String.match` does for an unanchored regex. -/
def searchFrom {α : Type} (p : List Char → Option α) : List Char → Option α
  | [] => p []
  | c :: cs =>
    match p (c :: cs) with
    | some r => some r
    | none => searchFrom p cs

/-- Whether `pat` occurs at the very start of the input. -/
def isPrefixList : List Char → List Char → Bool
  | [], _ => true
  | _ :: _, [] => false
  | p :: ps, c :: cs => p == c && isPrefixList ps cs

/-- Whether `pat` occurs anywhere in the input
(JavaScript `String.includes`). -/
def containsSub (pat : List Char) : List Char → Bool
  | [] => isPrefixList pat []
  | c :: cs => isPrefixList pat (c :: cs) || containsSub pat cs

/-- The cheap pre-filter `line.includes('/INFO]')`. -/
def hasInfoMarker (line : String) : Bool :=
  containsSub "/INFO]".data line.data

/-- The common regex prefix `\[\d{2}:\d{2}:\d{2}\] \[` of all six rules:
a bracketed two-digit timestamp followed by `" ["`.  `{2}` is a fixed
repetition, so no backtracking is possible inside it. -/
def pStamp : List Char → Option (List Char)
  | '[' :: a :: b :: ':' :: c :: d :: ':' :: e :: f :: ']' :: ' ' :: '[' :: rest =>
    if a.isDigit && b.isDigit && c.isDigit && d.isDigit && e.isDigit && f.isDigit then
      some rest
    else none
  | _ => none

/-- The suffix `<([^>]+)> (.+)` of the chat regex.  `[^>]+` is greedy and
cannot cross the `>` that must follow it, and `(.+)` is greedy with
nothing after it, so each capture is the maximal run of its class. -/
def chatTail (cs : List Char) : Option (List Char × List Char) := do
  let cs ← dropLit ['<'] cs
  let (player, cs) ← munch1 (fun c => c != '>') cs
  let cs ← dropLit ['>', ' '] cs
  let (msg, _) ← munch1 isDotCh cs
  pure (player, msg)

/-- The optional non-capturing group `(?:\[[^\]]+\] )?` of the chat rule,
taken together with the tail it must be followed by.  `[^\]]+` is greedy
and cannot cross the `]` that must follow it. -/
def chatBracketed (cs : List Char) : Option (List Char × List Char) := do
  let cs ← dropLit ['['] cs
  let (_, cs) ← munch1 (fun c => c != ']') cs
  let cs ← dropLit [']', ' '] cs
  chatTail cs

/-- Rule 1, at one start position:
`\[\d{2}:\d{2}:\d{2}\] \[Async Chat Thread - #\d+\/INFO\]: (?:\[[^\]]+\] )?<([^>]+)> (.+)`.
The optional group is tried first (greedy `?`); if it or the rest of the
regex fails there, matching backtracks to the group being absent. -/
def chatAt (cs : List Char) : Option (List Char × List Char) := do
  let cs ← pStamp cs
  let cs ← dropLit "Async Chat Thread - #".data cs
  let (_, cs) ← munch1 Char.isDigit cs
  let cs ← dropLit "/INFO]: ".data cs
  match chatBracketed cs with
  | some r => pure r
  | none => chatTail cs

/-- Rule 2, at one start position:
`\[\d{2}:\d{2}:\d{2}\] \[Server thread\/INFO\]: (\w+) joined the game`.
`\w+` is greedy and the space that must follow it is not a word
character, so only the maximal word run can match. -/
def joinAt (cs : List Char) : Option (List Char) := do
  let cs ← pStamp cs
  let cs ← dropLit "Server thread/INFO]: ".data cs
  let (player, cs) ← munch1 isWordCh cs
  let _ ← dropLit " joined the game".data cs
  pure player

/-- Rule 3, at one start position: as `joinAt` with `left the game`. -/
def leaveAt (cs : List Char) : Option (List Char) := do
  let cs ← pStamp cs
  let cs ← dropLit "Server thread/INFO]: ".data cs
  let (player, cs) ← munch1 isWordCh cs
  let _ ← dropLit " left the game".data cs
  pure player

/-- Rule 4, at one start position: the fixed welcome template
`Hey (\w+), sunshine! ... on Salmonized Workspace!` (the `.` after
`way` is escaped in the source regex, hence literal here). -/
def welcomeAt (cs : List Char) : Option (List Char) := do
  let cs ← pStamp cs
  let cs ← dropLit "Server thread/INFO]: Hey ".data cs
  let (player, cs) ← munch1 isWordCh cs
  let _ ← dropLit ", sunshine! Just wanted to send a little virtual hug your way. Hope your day is as awesome as you are! Have a fantastic time here on Salmonized Workspace!".data cs
  pure player

/-- The alternation
`(has made the advancement|has reached the goal|has completed the challenge)`,
tried left to right as JavaScript does. -/
def advPhrase : List Char → Option (List Char × List Char) :=
  fun cs =>
    match dropLit "has made the advancement".data cs with
    | some rest => some ("has made the advancement".data, rest)
    | none =>
      match dropLit "has reached the goal".data cs with
      | some rest => some ("has reached the goal".data, rest)
      | none =>
        match dropLit "has completed the challenge".data cs with
        | some rest => some ("has completed the challenge".data, rest)
        | none => none

/-- Split a list before the last occurrence of `]`, returning the part
before it and the part after it. -/
def splitLastBracket : List Char → Option (List Char × List Char)
  | [] => none
  | c :: cs =>
    match splitLastBracket cs with
    | some r => some (c :: r.1, r.2)
    | none => if c = ']' then some ([], cs) else none

/-- Rule 5, at one start position:
`... (\w+) (has made...|has reached...|has completed...) \[(.+)\]`.
After `[`, the greedy `(.+)` followed by `\]` backtracks to the last `]`
inside the maximal dot run, and the capture must be non-empty. -/
def advAt (cs : List Char) : Option (List Char × List Char × List Char) := do
  let cs ← pStamp cs
  let cs ← dropLit "Server thread/INFO]: ".data cs
  let (player, cs) ← munch1 isWordCh cs
  let cs ← dropLit [' '] cs
  let (phrase, cs) ← advPhrase cs
  let cs ← dropLit [' ', '['] cs
  let (run, _) ← munch1 isDotCh cs
  let (advName, _) ← splitLastBracket run
  if advName = [] then none else pure (player, phrase, advName)

/-- The death-verb allow-list, in the source's alternation order. -/
def deathVerbs : List String :=
  ["was", "walked", "drowned", "died", "experienced", "blew", "hit", "fell",
   "went", "burned", "tried", "discovered", "froze", "starved", "suffocated",
   "left", "withered", "didn't"]

/-- The alternation-plus-`.*` suffix `((?:was|walked|...).*)` of the death
rule: the first verb that is a character prefix of the remainder matches,
and the greedy `.*` then takes the rest of the dot run; the capture is
the verb together with that run. -/
def tryVerbs : List String → List Char → Option (List Char)
  | [], _ => none
  | v :: vs, cs =>
    match dropLit v.data cs with
    | some rest => some (v.data ++ (munch0 isDotCh rest).1)
    | none => tryVerbs vs cs

/-- Rule 6, at one start position:
`... (\w+) ((?:was|walked|...|didn't).*)`. -/
def deathAt (cs : List Char) : Option (List Char × List Char) := do
  let cs ← pStamp cs
  let cs ← dropLit "Server thread/INFO]: ".data cs
  let (player, cs) ← munch1 isWordCh cs
  let cs ← dropLit [' '] cs
  let msg ← tryVerbs deathVerbs cs
  pure (player, msg)

/-- Rule 1 with its renderer: `[CHAT] <player> msg`. -/
def chatRule (line : String) : Option String :=
  (searchFrom chatAt line.data).map fun r =>
    "[CHAT] <" ++ String.mk r.1 ++ "> " ++ String.mk r.2

/-- Rule 2 with its renderer: `[INFO] player joined the game`. -/
def joinRule (line : String) : Option String :=
  (searchFrom joinAt line.data).map fun p =>
    "[INFO] " ++ String.mk p ++ " joined the game"

/-- Rule 3 with its renderer: `[INFO] player left the game`. -/
def leaveRule (line : String) : Option String :=
  (searchFrom leaveAt line.data).map fun p =>
    "[INFO] " ++ String.mk p ++ " left the game"

/-- Rule 4 with its renderer: the welcome template rebuilt around the
player name. -/
def welcomeRule (line : String) : Option String :=
  (searchFrom welcomeAt line.data).map fun p =>
    "[INFO] Hey " ++ String.mk p ++ ", sunshine! Just wanted to send a little virtual hug your way. Hope your day is as awesome as you are! Have a fantastic time here on Salmonized Workspace!"

/-- Rule 5 with its renderer: `[INFO] player action [advName]`. -/
def advRule (line : String) : Option String :=
  (searchFrom advAt line.data).map fun r =>
    "[INFO] " ++ String.mk r.1 ++ " " ++ String.mk r.2.1 ++ " [" ++ String.mk r.2.2 ++ "]"

/-- Rule 6 with its renderer: `[INFO] player msg`. -/
def deathRule (line : String) : Option String :=
  (searchFrom deathAt line.data).map fun r =>
    "[INFO] " ++ String.mk r.1 ++ " " ++ String.mk r.2

/-- `handleLogLine` from bridge.js: pre-filter on the info marker, then
the six rules tried in source order, the first match returning its
rendered text (the string passed to `sendToChatroom`); `none` when the
line is dropped. -/
def handleLogLine (line : String) : Option String :=
  if hasInfoMarker line then
    match chatRule line with
    | some out => some out
    | none =>
      match joinRule line with
      | some out => some out
      | none =>
        match leaveRule line with
        | some out => some out
        | none =>
          match welcomeRule line with
          | some out => some out
          | none =>
            match advRule line with
            | some out => some out
            | none =>
              match deathRule line with
              | some out => some out
              | none => none
  else none

/-- Spec-side combinator, following the specification's words: an ordered
list of pattern rules where the first rule that matches wins. -/
def firstMatchRender : List (String → Option String) → String → Option String
  | [], _ => none
  | r :: rs, line =>
    match r line with
    | some out => some out
    | none => firstMatchRender rs line

/-- Spec-side rule order: chat, join, leave, welcome, advancement, death. -/
def orderedRules : List (String → Option String) :=
  [chatRule, joinRule, leaveRule, welcomeRule, advRule, deathRule]

/-! ## The outbound WebSocket state machine

`Date.now()` is an explicit `now : Nat` in milliseconds.  The `ws`
variable is `Option ReadyState` (`none` before the first `connect`).
`idleTimer` holds the deadline of the single pending idle timeout, if
any (`resetIdleTimer` always clears the previous one before arming).
The `close` handler's `setTimeout(..., 5000)` has no handle and is never
cleared, so several can be pending at once: `reconnectTimers` lists
their deadlines in creation order. -/

/-- A queued message: `{ text, time: Date.now() }`. -/
structure Msg where
  text : String
  time : Nat
deriving DecidableEq

/-- `ws.readyState` values of the `ws` library. -/
inductive ReadyState where
  | Connecting
  | Open
  | Closing
  | Closed
deriving DecidableEq

/-- The module-level mutable state of bridge.js part II. -/
structure BridgeState where
  ws : Option ReadyState
  msgQueue : List Msg
  idleTimer : Option Nat
  reconnectTimers : List Nat
deriving DecidableEq

/-- Externally visible effects of a step. -/
inductive Action where
  | send (msg : Msg) (finalText : String) (ok : Bool)
  | wsStart
  | wsCloseCall
deriving DecidableEq

/-- The latency annotation inside `flushMsgQueue`.  The source computes
`latency = (now - msg.time) / 1000` as a float and appends
`(delayed ${latency.toFixed(0)}s)` when `latency > 5`.  For millisecond
integers `m ≥ 0`: `m / 1000 > 5` exactly when `m > 5000` (the quotient
`m / 1000` is never closer than about `10⁻³` to `5` unless exactly `5`,
far outside double rounding error), and `toFixed(0)` rounds to the
nearest integer with ties away from zero, which for `m ≥ 0` is
`(m + 500) / 1000` in integer division (exact ties `m ≡ 500 mod 1000`
give representable halves, so the float is exact there).  A message
enqueued after `now` (impossible in a forward-time trace) would have
negative float latency and no suffix; truncated `Nat` subtraction gives
`0` and likewise no suffix. -/
def annotate (now : Nat) (m : Msg) : String :=
  let lat := now - m.time
  if 5000 < lat then
    m.text ++ " (delayed " ++ toString ((lat + 500) / 1000) ++ "s)"
  else m.text

/-- The `while (msgQueue.length > 0)` loop of `flushMsgQueue`: shift the
oldest message, annotate, `ws.send` it.  `ws.send` may throw on a
transport failure; the loop has no handler, so a throw aborts it with
the shifted message already removed.  `sendOk k` says whether the `k`-th
send of this flush succeeds.  The source reads `Date.now()` on each
iteration, but the loop is synchronous (one scheduler slice), so a
single `now` models it.  Returns the remaining queue, the actions, and
whether the loop completed without a throw. -/
def flushLoop (now : Nat) (sendOk : Nat → Bool) : Nat → List Msg → List Msg × List Action × Bool
  | _, [] => ([], [], true)
  | k, m :: rest =>
    let ft := annotate now m
    if sendOk k then
      let r := flushLoop now sendOk (k + 1) rest
      (r.1, Action.send m ft true :: r.2.1, r.2.2)
    else
      (rest, [Action.send m ft false], false)

/-- `flushMsgQueue` from bridge.js: early return unless `ws` exists and
is `OPEN`; otherwise drain the queue and finally `resetIdleTimer()`
(re-arming the single 10-minute = 600000 ms idle deadline); a throw
mid-loop skips the idle re-arm. -/
def flushMsgQueue (now : Nat) (sendOk : Nat → Bool) (st : BridgeState) : BridgeState × List Action :=
  if st.ws = some ReadyState.Open then
    let r := flushLoop now sendOk 0 st.msgQueue
    if r.2.2 then
      ({ st with msgQueue := r.1, idleTimer := some (now + 600000) }, r.2.1)
    else
      ({ st with msgQueue := r.1 }, r.2.1)
  else (st, [])

/-- `connect()` from bridge.js: a no-op when `ws` is already `OPEN` or
`CONNECTING`; otherwise a new WebSocket is created (readyState
`CONNECTING`). -/
def connect (st : BridgeState) : BridgeState × List Action :=
  if st.ws = some ReadyState.Open ∨ st.ws = some ReadyState.Connecting then (st, [])
  else ({ st with ws := some ReadyState.Connecting }, [Action.wsStart])

/-- `sendToChatroom(text)` from bridge.js: push `{text, time: now}`,
then flush if the socket is open, else `connect()`. -/
def sendToChatroom (now : Nat) (sendOk : Nat → Bool) (text : String) (st : BridgeState) : BridgeState × List Action :=
  let st1 := { st with msgQueue := st.msgQueue ++ [{ text := text, time := now }] }
  if st1.ws = some ReadyState.Open then flushMsgQueue now sendOk st1
  else connect st1

/-- Trace events: the asynchronous boundaries at which the single-threaded
scheduler runs bridge code.  `enqueue` is a parsed log line reaching
`sendToChatroom`; `wsOpen`/`wsClose`/`wsError` are transport events;
`idleFire`/`reconnectFire` are timer expiries.  Events that can trigger a
flush carry the send-success oracle for that flush. -/
inductive Ev where
  | enqueue (text : String) (now : Nat) (sendOk : Nat → Bool)
  | wsOpen (now : Nat) (sendOk : Nat → Bool)
  | wsClose (now : Nat)
  | wsError
  | idleFire
  | reconnectFire

/-- One scheduler step.  Events that cannot occur in the given state
(an `open` on a non-connecting socket, a timer expiry with no pending
timer) are no-ops.

* `wsOpen`: the socket becomes `OPEN`, then the handler flushes.
* `wsClose`: the socket becomes `CLOSED` and the handler unconditionally
  schedules `setTimeout(() => { if (msgQueue.length > 0) connect(); }, 5000)`.
* `wsError`: the handler calls `ws.close()`.
* `idleFire`: the idle callback closes the transport only if still open.
* `reconnectFire`: the oldest pending close-handler timeout runs; it
  checks the queue length at firing time. -/
def stepEv (st : BridgeState) : Ev → BridgeState × List Action
  | Ev.enqueue text now sendOk => sendToChatroom now sendOk text st
  | Ev.wsOpen now sendOk =>
    if st.ws = some ReadyState.Connecting then
      flushMsgQueue now sendOk { st with ws := some ReadyState.Open }
    else (st, [])
  | Ev.wsClose now =>
    match st.ws with
    | some s =>
      if s = ReadyState.Closed then (st, [])
      else
        ({ st with ws := some ReadyState.Closed,
                   reconnectTimers := st.reconnectTimers ++ [now + 5000] }, [])
    | none => (st, [])
  | Ev.wsError =>
    match st.ws with
    | some s =>
      if s = ReadyState.Closed ∨ s = ReadyState.Closing then (st, [])
      else ({ st with ws := some ReadyState.Closing }, [Action.wsCloseCall])
    | none => (st, [])
  | Ev.idleFire =>
    match st.idleTimer with
    | some _ =>
      if st.ws = some ReadyState.Open then
        ({ st with idleTimer := none, ws := some ReadyState.Closing }, [Action.wsCloseCall])
      else ({ st with idleTimer := none }, [])
    | none => (st, [])
  | Ev.reconnectFire =>
    match st.reconnectTimers with
    | [] => (st, [])
    | _ :: ds =>
      let st0 := { st with reconnectTimers := ds }
      if st0.msgQueue = [] then (st0, []) else connect st0

/-- Run a trace of events, collecting all actions in order. -/
def runEvs : BridgeState → List Ev → BridgeState × List Action
  | st, [] => (st, [])
  | st, e :: es =>
    let r1 := stepEv st e
    let r2 := runEvs r1.1 es
    (r2.1, r1.2 ++ r2.2)

/-- The module state at process start, before the initial `connect()`. -/
def initState : BridgeState :=
  { ws := none, msgQueue := [], idleTimer := none, reconnectTimers := [] }

/-- The messages handed to `ws.send`, in order (successful or not). -/
def sentMsgs : List Action → List Msg
  | [] => []
  | Action.send m _ _ :: rest => m :: sentMsgs rest
  | Action.wsStart :: rest => sentMsgs rest
  | Action.wsCloseCall :: rest => sentMsgs rest

/-- The messages enqueued by a trace, in enqueue order. -/
def enqueuedMsgs : List Ev → List Msg
  | [] => []
  | Ev.enqueue t now _ :: rest => { text := t, time := now } :: enqueuedMsgs rest
  | Ev.wsOpen _ _ :: rest => enqueuedMsgs rest
  | Ev.wsClose _ :: rest => enqueuedMsgs rest
  | Ev.wsError :: rest => enqueuedMsgs rest
  | Ev.idleFire :: rest => enqueuedMsgs rest
  | Ev.reconnectFire :: rest => enqueuedMsgs rest

/-- `true` when every `send` action except possibly the very last one in
the list succeeded: a failure can only be the last thing a flush does. -/
def sendsOkButLast : List Action → Bool
  | [] => true
  | [_] => true
  | Action.send _ _ ok :: rest => ok && sendsOkButLast rest
  | Action.wsStart :: rest => sendsOkButLast rest
  | Action.wsCloseCall :: rest => sendsOkButLast rest

/-! ## The HTTP relay (part I of bridge.js) -/

/-- JavaScript truthiness of an optional string: `undefined` and the
empty string are falsy. -/
def jsStrTruthy : Option String → Bool
  | none => false
  | some s => s != ""

/-- The configuration consumed by the relay. -/
structure RelayConfig where
  bridgeToken : Option String
  rconPassword : Option String
deriving DecidableEq

/-- The request body after the `end` event.  `JSON.parse` is a runtime
collaborator, so the body is modelled by its parse outcome: `malformed`
when `JSON.parse(body)` (or the `data.command` access on a non-object)
throws, otherwise the parsed `data.command` value (`none` when the field
is absent; a non-string command never arises from the chat-room client
and is not modelled). -/
inductive ReqBody where
  | malformed
  | parsed (command : Option String)
deriving DecidableEq

/-- An incoming HTTP request. -/
structure HttpReq where
  method : String
  url : String
  authHeader : Option String
  body : ReqBody
deriving DecidableEq

/-- A response: status code and body text. -/
structure HttpResp where
  status : Nat
  respBody : String
deriving DecidableEq

/-- `sendRconCommand` from bridge.js, as the number of commands actually
handed to the RCON collaborator: zero when `RCON_PASSWORD` is not
configured (the function logs and returns) or when `Rcon.connect`
fails; otherwise exactly one `rcon.send(command)`.  Every error is
caught inside the function, so it never throws to its caller. -/
def sendRconCommand (rconPassword : Option String) (connectFails : Bool) : Nat :=
  if jsStrTruthy rconPassword then
    if connectFails then 0 else 1
  else 0

/-- The `http.createServer` handler from bridge.js, returning the
response and the number of RCON command invocations:

* anything but `POST /` is 404;
* with a truthy configured `BRIDGE_TOKEN`, an authorization header
  different from `Bearer <token>` (including a missing one) is 401,
  before the body is read;
* a body on which `JSON.parse` (or the field access) throws lands in the
  `catch` and is 500 `Internal Error`;
* a falsy `data.command` is 400 `Missing command`;
* otherwise `sendRconCommand` runs (it swallows its own failures) and
  the response is 200 `OK`. -/
def httpHandler (cfg : RelayConfig) (req : HttpReq) (rconConnectFails : Bool) : HttpResp × Nat :=
  if req.method = "POST" ∧ req.url = "/" then
    if jsStrTruthy cfg.bridgeToken ∧
        req.authHeader ≠ some ("Bearer " ++ cfg.bridgeToken.getD "") then
      ({ status := 401, respBody := "Unauthorized" }, 0)
    else
      match req.body with
      | ReqBody.malformed => ({ status := 500, respBody := "Internal Error" }, 0)
      | ReqBody.parsed command =>
        if jsStrTruthy command then
          ({ status := 200, respBody := "OK" }, sendRconCommand cfg.rconPassword rconConnectFails)
        else ({ status := 400, respBody := "Missing command" }, 0)
  else ({ status := 404, respBody := "Not Found" }, 0)

/-! ## Cookie auto-renewal (part III of bridge.js) -/

/-- The capture of the leftmost match of `session=([^;]+)` in the cookie
string, at one start position. -/
def sessionAt (cs : List Char) : Option (List Char) := do
  let cs ← dropLit "session=".data cs
  let (tok, _) ← munch1 (fun c => c != ';') cs
  pure tok

/-- Session-token extraction in `renewCookieIfNeeded`: the first capture
of `COOKIE.match(/session=([^;]+)/)`, or the whole cookie when the
regex does not match. -/
def extractSessionToken (cookie : String) : String :=
  match searchFrom sessionAt cookie.data with
  | some tok => String.mk tok
  | none => cookie

/-- The renewal gate of `renewCookieIfNeeded`, given the decoded JWT
payload's `exp` claim (`parseJwt` builds it with `atob`/`JSON.parse`,
which are runtime collaborators; `none` covers an unparsable credential
or an absent `exp`) and `now` in seconds.  The source computes
`daysLeft = (exp - now) / (60*60*24)` as a float and renews when
`daysLeft < 10`; for integer seconds this is exactly
`exp - now < 864000` (the quotient can only equal 10 when
`exp - now = 864000`, and is otherwise at least `1/86400` away from 10,
far outside double rounding error).  A zero `exp` is falsy in
`!payload.exp` and skips the check. -/
def renewCookieDecision (exp : Option Int) (now : Int) : Bool :=
  match exp with
  | none => false
  | some e => if e = 0 then false else decide (e - now < 864000)

/-- The result of `setCookieHeader.split(';')[0]`: everything before the
first `;` (the whole string when there is none). -/
def firstSemiSeg (s : String) : String :=
  String.mk (munch0 (fun c => c != ';') s.data).1

/-- `envContent.replace(/COOKIE=.*/, 'COOKIE=' + part)`: at the leftmost
occurrence of `COOKIE=`, replace it and the rest of that line (the
greedy dot run) with the new line.  (The JavaScript `$`-substitution
rules for the replacement string do not arise for a cookie value.) -/
def replaceCookieLine (newPart : List Char) : List Char → List Char
  | [] => []
  | c :: cs =>
    if isPrefixList "COOKIE=".data (c :: cs) then
      "COOKIE=".data ++ newPart ++ (munch0 isDotCh (List.drop 7 (c :: cs))).2
    else c :: replaceCookieLine newPart cs

/-- The outcomes of the runtime collaborators used by one
`performRenewal` run: the two `fetch` calls (`tokenJson = none` when
`tokenRes.json()` throws), the `set-cookie` header, and whether the
`.env` rewrite throws. -/
structure RenewNet where
  tokenResOk : Bool
  tokenJson : Option (Bool × Option String)
  loginResOk : Bool
  setCookie : Option String
  writeFails : Bool
deriving DecidableEq

/-- The state `performRenewal` can mutate: the in-memory
`CONFIG.COOKIE` and the `.env` file contents (`none` when the file does
not exist). -/
structure RenewState where
  cookie : String
  envFile : Option String
deriving DecidableEq

/-- `performRenewal` from bridge.js.  Each `throw` lands in the single
`catch`, which only logs: a failed token request, an invalid token
response (`!tokenData.success || !tokenData.token`), a failed login
request, or a missing `set-cookie` header leaves the state untouched.
On success the in-memory cookie becomes the first `;`-segment of the
header, and the `.env` file (if present, and if the write does not
throw) has its `COOKIE=` line replaced, or the line appended when
absent. -/
def performRenewal (st : RenewState) (net : RenewNet) : RenewState :=
  if net.tokenResOk = false then st
  else
    match net.tokenJson with
    | none => st
    | some td =>
      if !(td.1 && jsStrTruthy td.2) then st
      else if net.loginResOk = false then st
      else if !(jsStrTruthy net.setCookie) then st
      else
        let newPart := firstSemiSeg (net.setCookie.getD "")
        let env' :=
          match st.envFile with
          | none => none
          | some content =>
            if net.writeFails then some content
            else if containsSub "COOKIE=".data content.data then
              some (String.mk (replaceCookieLine newPart.data content.data))
            else some (content ++ "\nCOOKIE=" ++ newPart)
        { cookie := newPart, envFile := env' }

/-! ## Queue lemmas -/

theorem sentMsgs_append (a b : List Action) :
    sentMsgs (a ++ b) = sentMsgs a ++ sentMsgs b := by
  induction a with
  | nil => simp [sentMsgs]
  | cons x rest ih => cases x <;> simp [sentMsgs, ih]

theorem flushLoop_queue (now : Nat) (sendOk : Nat → Bool) :
    ∀ (k : Nat) (q : List Msg),
      sentMsgs (flushLoop now sendOk k q).2.1 ++ (flushLoop now sendOk k q).1 = q := by
  intro k q
  induction q generalizing k with
  | nil => simp [flushLoop, sentMsgs]
  | cons m rest ih =>
    cases h : sendOk k with
    | true => simp [flushLoop, h, sentMsgs, ih]
    | false => simp [flushLoop, h, sentMsgs]

theorem flushLoop_okButLast (now : Nat) (sendOk : Nat → Bool) :
    ∀ (k : Nat) (q : List Msg), sendsOkButLast (flushLoop now sendOk k q).2.1 = true := by
  intro k q
  induction q generalizing k with
  | nil => simp [flushLoop, sendsOkButLast]
  | cons m rest ih =>
    cases h : sendOk k with
    | true =>
      have ih' := ih (k + 1)
      simp only [flushLoop, h, if_true]
      cases hrest : (flushLoop now sendOk (k + 1) rest).2.1 with
      | nil => simp [sendsOkButLast]
      | cons a as =>
        rw [hrest] at ih'
        simp [sendsOkButLast, ih']
    | false => simp [flushLoop, h, sendsOkButLast]

theorem flushLoop_allOk (now : Nat) (sendOk : Nat → Bool) (hok : ∀ k, sendOk k = true) :
    ∀ (k : Nat) (q : List Msg), (flushLoop now sendOk k q).2.2 = true := by
  intro k q
  induction q generalizing k with
  | nil => simp [flushLoop]
  | cons m rest ih => simp [flushLoop, hok k, ih]

theorem flushMsgQueue_queue (now : Nat) (sendOk : Nat → Bool) (st : BridgeState) :
    sentMsgs (flushMsgQueue now sendOk st).2 ++ (flushMsgQueue now sendOk st).1.msgQueue
      = st.msgQueue := by
  unfold flushMsgQueue
  by_cases h : st.ws = some ReadyState.Open
  · cases hflag : (flushLoop now sendOk 0 st.msgQueue).2.2 <;>
      simp [h, hflag, flushLoop_queue]
  · simp [h, sentMsgs]

theorem flushMsgQueue_okButLast (now : Nat) (sendOk : Nat → Bool) (st : BridgeState) :
    sendsOkButLast (flushMsgQueue now sendOk st).2 = true := by
  unfold flushMsgQueue
  by_cases h : st.ws = some ReadyState.Open
  · cases hflag : (flushLoop now sendOk 0 st.msgQueue).2.2 <;>
      simp [h, hflag, flushLoop_okButLast]
  · simp [h, sendsOkButLast]

theorem enqueuedMsgs_cons (e : Ev) (es : List Ev) :
    enqueuedMsgs (e :: es) = enqueuedMsgs [e] ++ enqueuedMsgs es := by
  cases e <;> simp [enqueuedMsgs]

theorem stepEv_queue (st : BridgeState) (e : Ev) :
    sentMsgs (stepEv st e).2 ++ (stepEv st e).1.msgQueue
      = st.msgQueue ++ enqueuedMsgs [e] := by
  cases e with
  | enqueue t now sendOk =>
    simp only [stepEv, sendToChatroom, enqueuedMsgs]
    split
    · rw [flushMsgQueue_queue]
    · unfold connect
      split <;> simp [sentMsgs]
  | wsOpen now sendOk =>
    simp only [stepEv, enqueuedMsgs]
    split
    · rw [flushMsgQueue_queue]; simp
    · simp [sentMsgs]
  | wsClose now =>
    simp only [stepEv, enqueuedMsgs]
    cases st.ws with
    | some s =>
      by_cases h : s = ReadyState.Closed <;> simp [h, sentMsgs]
    | none => simp [sentMsgs]
  | wsError =>
    simp only [stepEv, enqueuedMsgs]
    cases st.ws with
    | some s =>
      by_cases h : s = ReadyState.Closed ∨ s = ReadyState.Closing <;> simp [h, sentMsgs]
    | none => simp [sentMsgs]
  | idleFire =>
    simp only [stepEv, enqueuedMsgs]
    cases st.idleTimer with
    | some d =>
      by_cases h : st.ws = some ReadyState.Open <;> simp [h, sentMsgs]
    | none => simp [sentMsgs]
  | reconnectFire =>
    simp only [stepEv, enqueuedMsgs]
    cases st.reconnectTimers with
    | nil => simp [sentMsgs]
    | cons d ds =>
      by_cases h : st.msgQueue = []
      · simp [h, sentMsgs]
      · simp only [h, if_neg, connect]
        by_cases hws : st.ws = some ReadyState.Open ∨ st.ws = some ReadyState.Connecting <;>
          simp [hws, sentMsgs]

theorem runEvs_queue (st : BridgeState) (evs : List Ev) :
    sentMsgs (runEvs st evs).2 ++ (runEvs st evs).1.msgQueue
      = st.msgQueue ++ enqueuedMsgs evs := by
  induction evs generalizing st with
  | nil => simp [runEvs, sentMsgs, enqueuedMsgs]
  | cons e es ih =>
    simp only [runEvs]
    rw [sentMsgs_append, List.append_assoc, ih, ← List.append_assoc, stepEv_queue,
      List.append_assoc, ← enqueuedMsgs_cons]

theorem flushLoop_sends_annotated (now : Nat) (sendOk : Nat → Bool) :
    ∀ (k : Nat) (q : List Msg) (a : Action), a ∈ (flushLoop now sendOk k q).2.1 →
      ∃ m ok, a = Action.send m (annotate now m) ok := by
  intro k q
  induction q generalizing k with
  | nil => intro a ha; simp [flushLoop] at ha
  | cons m rest ih =>
    intro a ha
    cases h : sendOk k with
    | true =>
      simp only [flushLoop, h, if_true, List.mem_cons] at ha
      rcases ha with rfl | ha
      · exact ⟨m, true, rfl⟩
      · exact ih (k + 1) a ha
    | false =>
      simp [flushLoop, h] at ha
      exact ⟨m, false, ha⟩

/-- Spec-side rounding to whole seconds (ties rounded up, as
`toFixed(0)` does for non-negative values). -/
def specDelaySec (ms : Nat) : Nat :=
  if ms % 1000 < 500 then ms / 1000 else ms / 1000 + 1

theorem roundSec_eq (ms : Nat) : (ms + 500) / 1000 = specDelaySec ms := by
  unfold specDelaySec
  split <;> omega

/-! ## Claims C1, C2, C5, C6, C9 -/

/-- C1, counterexample.  The claim says a message is removed from the
queue only by a successful send, so that no queued message is ever lost
except by successful delivery.  In the code the message is
`msgQueue.shift()`-ed before `ws.send` is called, so when the first send
of a flush throws, message `A` has already been removed (and is lost)
even though its send did not succeed; only `B` remains queued. -/
theorem C1_counterexample :
    flushMsgQueue 0 (fun _ => false)
        { ws := some ReadyState.Open,
          msgQueue := [{ text := "A", time := 0 }, { text := "B", time := 0 }],
          idleTimer := none, reconnectTimers := [] }
      = ({ ws := some ReadyState.Open, msgQueue := [{ text := "B", time := 0 }],
           idleTimer := none, reconnectTimers := [] },
         [Action.send { text := "A", time := 0 } "A" false]) := by decide

/-- C1, amended.  During a flush, messages are popped oldest-first and a
message is removed from the queue only by having a send attempted on it:
the popped messages followed by the remaining queue are exactly the
original queue.  A send failure aborts the loop, so every send except
possibly the last one of the flush succeeded; every message after the
failing one remains queued, while the failing message itself was
already removed and is not retried. -/
theorem C1_flush_abort (now : Nat) (sendOk : Nat → Bool) (st : BridgeState) :
    sentMsgs (flushMsgQueue now sendOk st).2 ++ (flushMsgQueue now sendOk st).1.msgQueue
        = st.msgQueue ∧
    sendsOkButLast (flushMsgQueue now sendOk st).2 = true :=
  ⟨flushMsgQueue_queue now sendOk st, flushMsgQueue_okButLast now sendOk st⟩

/-- C2.  Strict FIFO: over any event trace, the messages handed to
`ws.send` followed by the messages still queued are exactly the initial
queue followed by the enqueued messages in enqueue order — so the oldest
enqueued message is always the next one sent and no reordering occurs
across any disconnect/reconnect.  In particular (second conjunct, the
spec's scenario) enqueuing `A`, `B`, `C` while disconnected and then
opening the transport delivers exactly `A`, `B`, `C` in order. -/
theorem C2_fifo :
    (∀ (st : BridgeState) (evs : List Ev),
        sentMsgs (runEvs st evs).2 ++ (runEvs st evs).1.msgQueue
          = st.msgQueue ++ enqueuedMsgs evs) ∧
    (runEvs initState
        [Ev.enqueue "A" 0 (fun _ => true), Ev.enqueue "B" 0 (fun _ => true),
         Ev.enqueue "C" 0 (fun _ => true), Ev.wsOpen 0 (fun _ => true)]).2
      = [Action.wsStart,
         Action.send { text := "A", time := 0 } "A" true,
         Action.send { text := "B", time := 0 } "B" true,
         Action.send { text := "C", time := 0 } "C" true] :=
  ⟨runEvs_queue, by decide⟩

/-- C5, counterexample.  The claim says that on a transport close with an
empty queue no action is scheduled.  The close handler in the code runs
`setTimeout(..., 5000)` unconditionally — the queue length is only
examined when the timer fires — so a 5-second timer is pending even
though the queue was empty at close time. -/
theorem C5_counterexample :
    (stepEv { ws := some ReadyState.Open, msgQueue := [], idleTimer := none,
              reconnectTimers := [] } (Ev.wsClose 0)).1.reconnectTimers = [5000] := by decide

/-- C5, amended.  Every transport close unconditionally schedules one
timer for 5 seconds later (first conjunct: deadline `now + 5000` is
appended, and the close handler performs no other action).  When that
timer fires with a non-empty queue on a closed socket, exactly one
reconnect attempt is made (second conjunct: one new `CONNECTING` socket);
when it fires with an empty queue, nothing happens and the bridge stays
disconnected until the next enqueue triggers a lazy reconnect (third
conjunct). -/
theorem C5_reconnect :
    (∀ (st : BridgeState) (now : Nat) (s : ReadyState), st.ws = some s →
        s ≠ ReadyState.Closed →
        stepEv st (Ev.wsClose now)
          = ({ st with ws := some ReadyState.Closed,
                       reconnectTimers := st.reconnectTimers ++ [now + 5000] }, [])) ∧
    (∀ (st : BridgeState) (d : Nat) (ds : List Nat), st.reconnectTimers = d :: ds →
        st.msgQueue ≠ [] → st.ws = some ReadyState.Closed →
        stepEv st Ev.reconnectFire
          = ({ st with ws := some ReadyState.Connecting, reconnectTimers := ds },
             [Action.wsStart])) ∧
    (∀ (st : BridgeState) (d : Nat) (ds : List Nat), st.reconnectTimers = d :: ds →
        st.msgQueue = [] →
        stepEv st Ev.reconnectFire = ({ st with reconnectTimers := ds }, [])) := by
  refine ⟨?_, ?_, ?_⟩
  · intro st now s hws hs
    simp [stepEv, hws, hs]
  · intro st d ds hrt hq hws
    simp [stepEv, hrt, hq, connect, hws]
  · intro st d ds hrt hq
    simp [stepEv, hrt, hq]

/-- C5, witness: the amended theorem at concrete states — a close at
time 0 on an open socket with one queued message schedules the 5000 ms
timer; firing it with the message still queued makes exactly one
reconnect attempt; firing it with an empty queue does nothing. -/
theorem C5_reconnect_witness :
    stepEv { ws := some ReadyState.Open, msgQueue := [{ text := "A", time := 0 }],
             idleTimer := none, reconnectTimers := [] } (Ev.wsClose 0)
      = ({ ws := some ReadyState.Closed, msgQueue := [{ text := "A", time := 0 }],
           idleTimer := none, reconnectTimers := [5000] }, []) ∧
    stepEv { ws := some ReadyState.Closed, msgQueue := [{ text := "A", time := 0 }],
             idleTimer := none, reconnectTimers := [5000] } Ev.reconnectFire
      = ({ ws := some ReadyState.Connecting, msgQueue := [{ text := "A", time := 0 }],
           idleTimer := none, reconnectTimers := [] }, [Action.wsStart]) ∧
    stepEv { ws := some ReadyState.Closed, msgQueue := [], idleTimer := none,
             reconnectTimers := [5000] } Ev.reconnectFire
      = ({ ws := some ReadyState.Closed, msgQueue := [], idleTimer := none,
           reconnectTimers := [] }, []) := by
  refine ⟨?_, ?_, ?_⟩
  · exact (C5_reconnect.1 _ 0 ReadyState.Open rfl (by decide)).trans (by decide)
  · exact (C5_reconnect.2.1 _ 5000 [] rfl (by decide) rfl).trans (by decide)
  · exact (C5_reconnect.2.2 _ 5000 [] rfl rfl).trans (by decide)

/-- C9, amended.  The idle timer is a single cleared-before-armed handle
(at most one pending, which the `Option`-typed `idleTimer` field records).
Every flush that passes the open-socket guard and completes without a
send failure — including one that sent zero messages — re-arms the
10-minute (600000 ms) countdown (first conjunct).  On expiry with the
socket still open, the transport is closed exactly once (second
conjunct: the single `wsCloseCall` action).  On expiry with the socket
not open, nothing is closed (third conjunct).  An enqueue re-arms the
countdown only via the flush it triggers when the socket is open; an
enqueue while disconnected leaves a pending idle timer unchanged. -/
theorem C9_idle :
    (∀ (now : Nat) (sendOk : Nat → Bool) (st : BridgeState),
        st.ws = some ReadyState.Open → (∀ k, sendOk k = true) →
        (flushMsgQueue now sendOk st).1.idleTimer = some (now + 600000)) ∧
    (∀ (st : BridgeState) (d : Nat), st.idleTimer = some d →
        st.ws = some ReadyState.Open →
        stepEv st Ev.idleFire
          = ({ st with idleTimer := none, ws := some ReadyState.Closing },
             [Action.wsCloseCall])) ∧
    (∀ (st : BridgeState) (d : Nat), st.idleTimer = some d →
        st.ws ≠ some ReadyState.Open →
        stepEv st Ev.idleFire = ({ st with idleTimer := none }, [])) := by
  refine ⟨?_, ?_, ?_⟩
  · intro now sendOk st hws hok
    simp [flushMsgQueue, hws, flushLoop_allOk now sendOk hok]
  · intro st d hd hws
    simp [stepEv, hd, hws]
  · intro st d hd hws
    simp [stepEv, hd, hws]

/-- C9, witness: a flush of an already-empty queue on an open socket at
time 0 re-arms the deadline to 600000 ms; expiry with the socket open
closes the transport exactly once; expiry while closed does nothing. -/
theorem C9_idle_witness :
    (flushMsgQueue 0 (fun _ => true)
        { ws := some ReadyState.Open, msgQueue := [], idleTimer := none,
          reconnectTimers := [] }).1.idleTimer = some 600000 ∧
    stepEv { ws := some ReadyState.Open, msgQueue := [], idleTimer := some 600000,
             reconnectTimers := [] } Ev.idleFire
      = ({ ws := some ReadyState.Closing, msgQueue := [], idleTimer := none,
           reconnectTimers := [] }, [Action.wsCloseCall]) ∧
    stepEv { ws := some ReadyState.Closed, msgQueue := [], idleTimer := some 600000,
             reconnectTimers := [] } Ev.idleFire
      = ({ ws := some ReadyState.Closed, msgQueue := [], idleTimer := none,
           reconnectTimers := [] }, []) := by
  refine ⟨?_, ?_, ?_⟩
  · exact (C9_idle.1 0 (fun _ => true) _ rfl (fun _ => rfl)).trans (by decide)
  · exact (C9_idle.2.1 _ 600000 rfl rfl).trans (by decide)
  · exact (C9_idle.2.2 _ 600000 rfl (by decide)).trans (by decide)

/-- C6.  Every message popped during a flush is sent as
`annotate now m` (first conjunct); the annotation appends
` (delayed Ns)` with `N` the queued-to-sent latency rounded to whole
seconds exactly when that latency exceeds 5 seconds = 5000 ms (second
and third conjuncts), and in particular a message enqueued at `t = 0`
flushed at `t = 6000` ms renders with `(delayed 6s)` while one flushed
at `t = 4000` ms has no suffix (last conjuncts). -/
theorem C6_delay :
    (∀ (now : Nat) (sendOk : Nat → Bool) (k : Nat) (q : List Msg) (a : Action),
        a ∈ (flushLoop now sendOk k q).2.1 → ∃ m ok, a = Action.send m (annotate now m) ok) ∧
    (∀ (now : Nat) (m : Msg), 5000 < now - m.time →
        annotate now m
          = m.text ++ " (delayed " ++ toString (specDelaySec (now - m.time)) ++ "s)") ∧
    (∀ (now : Nat) (m : Msg), now - m.time ≤ 5000 → annotate now m = m.text) ∧
    annotate 6000 { text := "x", time := 0 } = "x (delayed 6s)" ∧
    annotate 4000 { text := "x", time := 0 } = "x" := by
  refine ⟨flushLoop_sends_annotated, ?_, ?_, by decide, by decide⟩
  · intro now m h
    simp [annotate, h, roundSec_eq]
  · intro now m h
    simp [annotate, Nat.not_lt.mpr h]

/-- C6, witness: the latency bound instantiated at 7000 ms and at the
boundary 5000 ms. -/
theorem C6_delay_witness :
    annotate 7000 { text := "y", time := 0 } = "y (delayed 7s)" ∧
    annotate 5000 { text := "y", time := 0 } = "y" := by
  constructor
  · exact (C6_delay.2.1 7000 { text := "y", time := 0 } (by decide)).trans (by decide)
  · exact (C6_delay.2.2.1 5000 { text := "y", time := 0 } (by decide))

/-- C9, counterexample.  The claim says every new enqueue resets the
idle countdown.  An enqueue while the socket is not open goes down the
`connect()` branch of `sendToChatroom`, which never touches the idle
timer: the stale pending deadline 999 is left unchanged. -/
theorem C9_counterexample :
    (sendToChatroom 0 (fun _ => true) "A"
        { ws := some ReadyState.Closed, msgQueue := [], idleTimer := some 999,
          reconnectTimers := [] }).1.idleTimer = some 999 := by decide

/-! ## Claims C4, C7, C8 -/

/-- C4, counterexample.  The claim says an internal failure during the
RCON call yields 500, and that a malformed payload is reported as a
client (4xx) error.  In the code `sendRconCommand` catches all of its
own errors, so an authorized request whose RCON connection fails still
returns 200 `OK` with zero collaborator invocations (first conjunct);
and a body on which `JSON.parse` throws lands in the handler's `catch`,
answering 500 `Internal Error`, not a 4xx (second conjunct). -/
theorem C4_counterexample :
    httpHandler { bridgeToken := some "s", rconPassword := some "p" }
        { method := "POST", url := "/", authHeader := some "Bearer s",
          body := ReqBody.parsed (some "list") } true
      = ({ status := 200, respBody := "OK" }, 0) ∧
    httpHandler { bridgeToken := some "s", rconPassword := some "p" }
        { method := "POST", url := "/", authHeader := some "Bearer s",
          body := ReqBody.malformed } false
      = ({ status := 500, respBody := "Internal Error" }, 0) := by decide

/-- C4, amended.  For the relay endpoint:
1. with a truthy configured secret, a non-matching or missing bearer
   token yields 401 and the RCON collaborator is not invoked;
2. an authorized `POST /` with a non-empty command, a configured RCON
   password and a working RCON connection yields 200 `OK` and exactly
   one collaborator invocation;
3. the same request with a failing RCON connection still yields 200
   (the failure is swallowed inside `sendRconCommand`), with no
   invocation;
4. a parsed payload with a missing or empty command yields 400;
5. a malformed payload yields 500 `Internal Error` (the handler's only
   `catch`), with no side effects;
6. any other method or route yields 404. -/
theorem C4_relay :
    (∀ (cfg : RelayConfig) (req : HttpReq) (rf : Bool) (t : String),
        cfg.bridgeToken = some t → t ≠ "" → req.method = "POST" → req.url = "/" →
        req.authHeader ≠ some ("Bearer " ++ t) →
        httpHandler cfg req rf = ({ status := 401, respBody := "Unauthorized" }, 0)) ∧
    (∀ (cfg : RelayConfig) (req : HttpReq) (cmd : String),
        req.method = "POST" → req.url = "/" →
        (jsStrTruthy cfg.bridgeToken = false ∨
          req.authHeader = some ("Bearer " ++ cfg.bridgeToken.getD "")) →
        req.body = ReqBody.parsed (some cmd) → cmd ≠ "" →
        jsStrTruthy cfg.rconPassword = true →
        httpHandler cfg req false = ({ status := 200, respBody := "OK" }, 1)) ∧
    (∀ (cfg : RelayConfig) (req : HttpReq) (cmd : String),
        req.method = "POST" → req.url = "/" →
        (jsStrTruthy cfg.bridgeToken = false ∨
          req.authHeader = some ("Bearer " ++ cfg.bridgeToken.getD "")) →
        req.body = ReqBody.parsed (some cmd) → cmd ≠ "" →
        httpHandler cfg req true = ({ status := 200, respBody := "OK" },
          sendRconCommand cfg.rconPassword true)) ∧
    (∀ (cfg : RelayConfig) (req : HttpReq) (rf : Bool) (cmd : Option String),
        req.method = "POST" → req.url = "/" →
        (jsStrTruthy cfg.bridgeToken = false ∨
          req.authHeader = some ("Bearer " ++ cfg.bridgeToken.getD "")) →
        req.body = ReqBody.parsed cmd → jsStrTruthy cmd = false →
        httpHandler cfg req rf = ({ status := 400, respBody := "Missing command" }, 0)) ∧
    (∀ (cfg : RelayConfig) (req : HttpReq) (rf : Bool),
        req.method = "POST" → req.url = "/" →
        (jsStrTruthy cfg.bridgeToken = false ∨
          req.authHeader = some ("Bearer " ++ cfg.bridgeToken.getD "")) →
        req.body = ReqBody.malformed →
        httpHandler cfg req rf = ({ status := 500, respBody := "Internal Error" }, 0)) ∧
    (∀ (cfg : RelayConfig) (req : HttpReq) (rf : Bool),
        ¬(req.method = "POST" ∧ req.url = "/") →
        httpHandler cfg req rf = ({ status := 404, respBody := "Not Found" }, 0)) := by
  refine ⟨?_, ?_, ?_, ?_, ?_, ?_⟩
  · intro cfg req rf t htok hne hm hu hh
    simp [httpHandler, hm, hu, htok, jsStrTruthy, hne, hh]
  · intro cfg req cmd hm hu hauth hbody hcmd hpw
    have hts : jsStrTruthy (some cmd) = true := by simp [jsStrTruthy, hcmd]
    rcases hauth with hauth | hauth <;>
      simp [httpHandler, hm, hu, hauth, hbody, hts, sendRconCommand, hpw]
  · intro cfg req cmd hm hu hauth hbody hcmd
    have hts : jsStrTruthy (some cmd) = true := by simp [jsStrTruthy, hcmd]
    rcases hauth with hauth | hauth <;>
      simp [httpHandler, hm, hu, hauth, hbody, hts]
  · intro cfg req rf cmd hm hu hauth hbody hcmd
    rcases hauth with hauth | hauth <;>
      simp [httpHandler, hm, hu, hauth, hbody, hcmd]
  · intro cfg req rf hm hu hauth hbody
    rcases hauth with hauth | hauth <;>
      simp [httpHandler, hm, hu, hauth, hbody]
  · intro cfg req rf hroute
    simp [httpHandler, hroute]

/-- C4, witness: the amended theorem instantiated at concrete requests
against configuration `{ BRIDGE_TOKEN := "s", RCON_PASSWORD := "p" }`. -/
theorem C4_relay_witness :
    httpHandler { bridgeToken := some "s", rconPassword := some "p" }
        { method := "POST", url := "/", authHeader := some "Bearer wrong",
          body := ReqBody.parsed (some "list") } false
      = ({ status := 401, respBody := "Unauthorized" }, 0) ∧
    httpHandler { bridgeToken := some "s", rconPassword := some "p" }
        { method := "POST", url := "/", authHeader := some "Bearer s",
          body := ReqBody.parsed (some "list") } false
      = ({ status := 200, respBody := "OK" }, 1) ∧
    httpHandler { bridgeToken := some "s", rconPassword := some "p" }
        { method := "POST", url := "/", authHeader := some "Bearer s",
          body := ReqBody.parsed none } false
      = ({ status := 400, respBody := "Missing command" }, 0) ∧
    httpHandler { bridgeToken := some "s", rconPassword := some "p" }
        { method := "GET", url := "/x", authHeader := none,
          body := ReqBody.parsed (some "list") } false
      = ({ status := 404, respBody := "Not Found" }, 0) := by
  refine ⟨?_, ?_, ?_, ?_⟩
  · exact C4_relay.1 _ _ false "s" rfl (by decide) rfl rfl (by decide)
  · exact C4_relay.2.1 _ _ "list" rfl rfl (Or.inr rfl) rfl (by decide) (by decide)
  · exact C4_relay.2.2.2.1 _ _ false none rfl rfl (Or.inr rfl) rfl (by decide)
  · exact C4_relay.2.2.2.2.2 _ _ false (by decide)

/-- C7.  The renewal gate: for a credential whose claims token decodes
to a payload with a (truthy) `exp`, `performRenewal` is invoked exactly
when `exp - now < 864000` seconds, i.e. when the remaining validity is
under 10 days (first conjunct; the source's float comparison
`(exp - now) / 86400 < 10` is exact for integer seconds).  In
particular, `exp = now + 9` days triggers renewal and
`exp = now + 11` days does not (second and third conjuncts). -/
theorem C7_renew_gating :
    (∀ (e now : Int), e ≠ 0 →
        (renewCookieDecision (some e) now = true ↔ e - now < 864000)) ∧
    (∀ now : Int, 0 < now →
        renewCookieDecision (some (now + 9 * 86400)) now = true) ∧
    (∀ now : Int, 0 < now →
        renewCookieDecision (some (now + 11 * 86400)) now = false) := by
  refine ⟨?_, ?_, ?_⟩
  · intro e now he
    simp [renewCookieDecision, he]
  · intro now h
    have hne : now + 9 * 86400 ≠ 0 := by omega
    simp only [renewCookieDecision, hne, if_false, decide_eq_true_eq]
    omega
  · intro now h
    have hne : now + 11 * 86400 ≠ 0 := by omega
    simp only [renewCookieDecision, hne, if_false, decide_eq_false_iff_not]
    omega

/-- C7, witness: the gate at a concrete epoch second. -/
theorem C7_renew_gating_witness :
    renewCookieDecision (some (1700000000 + 9 * 86400)) 1700000000 = true ∧
    renewCookieDecision (some (1700000000 + 11 * 86400)) 1700000000 = false :=
  ⟨C7_renew_gating.2.1 1700000000 (by norm_num),
   C7_renew_gating.2.2 1700000000 (by norm_num)⟩

/-- C8.  If any step of the renewal exchange fails — token-issuance
request not OK, token response unparsable or invalid
(`!tokenData.success || !tokenData.token`), login request not OK, or
`set-cookie` header missing — the cycle aborts in the single `catch`
and neither the in-memory credential nor the persisted `.env` contents
change: `performRenewal` returns its input state unchanged. -/
theorem C8_renewal_atomic (st : RenewState) (net : RenewNet)
    (h : net.tokenResOk = false ∨ net.tokenJson = none ∨
      (∃ success token, net.tokenJson = some (success, token) ∧
        (success = false ∨ jsStrTruthy token = false)) ∨
      net.loginResOk = false ∨ jsStrTruthy net.setCookie = false) :
    performRenewal st net = st := by
  unfold performRenewal
  by_cases h1 : net.tokenResOk = false
  · simp [h1]
  · cases hj : net.tokenJson with
    | none => simp [h1, hj]
    | some td =>
      by_cases h2 : (td.1 && jsStrTruthy td.2) = true
      · by_cases h3 : net.loginResOk = false
        · simp [h1, hj, h2, h3]
        · by_cases h4 : jsStrTruthy net.setCookie = true
          · exfalso
            rcases h with hc | hc | ⟨s, t, hjj, hi⟩ | hc | hc
            · exact h1 hc
            · rw [hj] at hc; cases hc
            · rw [hj] at hjj
              cases hjj
              rw [Bool.and_eq_true] at h2
              rcases h2 with ⟨hs, ht⟩
              rcases hi with hi | hi
              · rw [hi] at hs; cases hs
              · rw [hi] at ht; cases ht
            · exact h3 hc
            · rw [hc] at h4; cases h4
          · simp [h1, hj, h2, h3, h4]
      · simp [h1, hj, h2]

/-- C8, witness: a failed login request (third step) leaves a concrete
state — cookie and `.env` contents — untouched. -/
theorem C8_renewal_atomic_witness :
    performRenewal { cookie := "session=old", envFile := some "COOKIE=session=old" }
        { tokenResOk := true, tokenJson := some (true, some "tok"),
          loginResOk := false, setCookie := some "session=new; Max-Age=9",
          writeFails := false }
      = { cookie := "session=old", envFile := some "COOKIE=session=old" } :=
  C8_renewal_atomic _ _ (Or.inr (Or.inr (Or.inr (Or.inl rfl))))

/-! ## Parser lemmas for C3 and C10 -/

theorem dropLit_append (pat rest : List Char) : dropLit pat (pat ++ rest) = some rest := by
  induction pat with
  | nil => rfl
  | cons p ps ih => simp [dropLit, ih]

theorem dropLit_sound : ∀ (pat cs rest : List Char), dropLit pat cs = some rest → cs = pat ++ rest := by
  intro pat
  induction pat with
  | nil =>
    intro cs rest h
    simp only [dropLit, Option.some.injEq] at h
    simp [h]
  | cons p ps ih =>
    intro cs rest h
    cases cs with
    | nil => simp [dropLit] at h
    | cons c cs' =>
      simp only [dropLit] at h
      by_cases hc : c = p
      · rw [if_pos hc] at h
        have := ih cs' rest h
        simp [hc, this]
      · rw [if_neg hc] at h
        cases h

theorem munch0_all (p : Char → Bool) (l : List Char) (h : ∀ c ∈ l, p c = true) :
    munch0 p l = (l, []) := by
  induction l with
  | nil => rfl
  | cons c cs ih =>
    have hc := h c (List.mem_cons_self c cs)
    have ih' := ih fun x hx => h x (List.mem_cons_of_mem c hx)
    simp [munch0, hc, ih']

theorem munch0_split (p : Char → Bool) (l1 : List Char) (c : Char) (l2 : List Char)
    (h1 : ∀ x ∈ l1, p x = true) (hc : p c = false) :
    munch0 p (l1 ++ c :: l2) = (l1, c :: l2) := by
  induction l1 with
  | nil => simp [munch0, hc]
  | cons a as ih =>
    have ha := h1 a (List.mem_cons_self a as)
    have ih' := ih fun x hx => h1 x (List.mem_cons_of_mem a hx)
    simp [munch0, ha, ih']

theorem munch1_split (p : Char → Bool) (l1 : List Char) (c : Char) (l2 : List Char)
    (h1 : ∀ x ∈ l1, p x = true) (hc : p c = false) (hne : l1 ≠ []) :
    munch1 p (l1 ++ c :: l2) = some (l1, c :: l2) := by
  cases l1 with
  | nil => exact absurd rfl hne
  | cons a as =>
    have ha := h1 a (List.mem_cons_self a as)
    have h1' : ∀ x ∈ as, p x = true := fun x hx => h1 x (List.mem_cons_of_mem a hx)
    simp [munch1, ha, munch0_split p as c l2 h1' hc]

theorem searchFrom_head {α : Type} (p : List Char → Option α) (l : List Char) (r : α)
    (h : p l = some r) : searchFrom p l = some r := by
  cases l <;> simp [searchFrom, h]

theorem isPrefixList_append (pat rest : List Char) : isPrefixList pat (pat ++ rest) = true := by
  induction pat with
  | nil => rfl
  | cons p ps ih => simp [isPrefixList, ih]

theorem containsSub_of_head (pat cs : List Char) (h : isPrefixList pat cs = true) :
    containsSub pat cs = true := by
  cases cs with
  | nil => simpa [containsSub] using h
  | cons c cs' => simp [containsSub, h]

theorem containsSub_append_right (pat a b : List Char) (h : containsSub pat b = true) :
    containsSub pat (a ++ b) = true := by
  induction a with
  | nil => simpa using h
  | cons c cs ih => simp [containsSub, ih]

theorem tryVerbs_full : ∀ (vs : List String) (cs : List Char),
    (∀ c ∈ cs, isDotCh c = true) →
    (∃ v ∈ vs, ∃ t, cs = v.data ++ t) →
    tryVerbs vs cs = some cs := by
  intro vs
  induction vs with
  | nil =>
    intro cs hdot hex
    rcases hex with ⟨v, hv, _⟩
    cases hv
  | cons w ws ih =>
    intro cs hdot hex
    cases hm : dropLit w.data cs with
    | some rest =>
      have hcs := dropLit_sound w.data cs rest hm
      have hdrest : ∀ c ∈ rest, isDotCh c = true := fun c hc =>
        hdot c (by rw [hcs]; exact List.mem_append_right _ hc)
      subst hcs
      simp [tryVerbs, dropLit_append, munch0_all isDotCh rest hdrest]
    | none =>
      have hex' : ∃ v ∈ ws, ∃ t, cs = v.data ++ t := by
        rcases hex with ⟨v, hv, t, ht⟩
        rcases List.mem_cons.mp hv with rfl | hv'
        · exfalso
          rw [ht, dropLit_append] at hm
          cases hm
        · exact ⟨v, hv', t, ht⟩
      simp [tryVerbs, hm, ih cs hdot hex']

theorem strMkData (s : String) : String.mk s.data = s := by
  cases s
  rfl

/-! ## Claims C3 and C10 -/

/-- C3.  `handleLogLine` is the pre-filter followed by the six rules in
the fixed order chat, join, leave, welcome, advancement, death, with the
first matching rule winning (first conjunct, against the spec-side
first-match combinator).  The remaining conjuncts check an adversarial
line matched by two rules: `Alice left the game early` matches both the
leave rule (whose pattern has no end anchor, so it renders the truncated
`[INFO] Alice left the game`) and the death rule (verb `left`, rendering
`[INFO] Alice left the game early`); the earlier-listed leave rule
determines the output of `handleLogLine`. -/
theorem C3_rule_order :
    (∀ line : String,
        handleLogLine line
          = if hasInfoMarker line then firstMatchRender orderedRules line else none) ∧
    leaveRule "[12:34:56] [Server thread/INFO]: Alice left the game early"
      = some "[INFO] Alice left the game" ∧
    deathRule "[12:34:56] [Server thread/INFO]: Alice left the game early"
      = some "[INFO] Alice left the game early" ∧
    handleLogLine "[12:34:56] [Server thread/INFO]: Alice left the game early"
      = some "[INFO] Alice left the game" := by
  refine ⟨?_, by decide, by decide, by decide⟩
  intro line
  cases h : hasInfoMarker line <;>
    simp only [handleLogLine, orderedRules, firstMatchRender, h, if_true, if_false,
      Bool.false_eq_true, reduceIte]

/-- C10.  For every line of the shape
`[HH:MM:SS] [Server thread/INFO]: <name> <rest>` — timestamp digits
arbitrary, `<name>` a non-empty word — on which none of the five earlier
rules matches, if `<rest>` merely begins with one of the death verbs as
a raw character prefix (and contains no line terminators, as log lines
cannot), the line is classified as a death event and relayed as
`[INFO] <name> <rest>`. -/
theorem C10_death_prefix (h1 h2 m1 m2 s1 s2 : Char) (name rest : String)
    (hd1 : h1.isDigit = true) (hd2 : h2.isDigit = true) (hd3 : m1.isDigit = true)
    (hd4 : m2.isDigit = true) (hd5 : s1.isDigit = true) (hd6 : s2.isDigit = true)
    (hname : name.data ≠ []) (hword : ∀ c ∈ name.data, isWordCh c = true)
    (hverb : ∃ v ∈ deathVerbs, ∃ t, rest.data = v.data ++ t)
    (hdot : ∀ c ∈ rest.data, isDotCh c = true)
    (line : String)
    (hline : line = String.mk ('[' :: h1 :: h2 :: ':' :: m1 :: m2 :: ':' :: s1 :: s2
      :: ']' :: ' ' :: '[' :: ("Server thread/INFO]: ".data ++ (name.data ++ (' ' :: rest.data)))))
    (hchat : chatRule line = none) (hjoin : joinRule line = none)
    (hleave : leaveRule line = none) (hwelcome : welcomeRule line = none)
    (hadv : advRule line = none) :
    handleLogLine line = some ("[INFO] " ++ name ++ " " ++ rest) := by
  subst hline
  have hmarker : hasInfoMarker (String.mk ('[' :: h1 :: h2 :: ':' :: m1 :: m2 :: ':' :: s1 :: s2
      :: ']' :: ' ' :: '[' :: ("Server thread/INFO]: ".data ++ (name.data ++ (' ' :: rest.data))))) = true := by
    show containsSub "/INFO]".data ('[' :: h1 :: h2 :: ':' :: m1 :: m2 :: ':' :: s1 :: s2
      :: ']' :: ' ' :: '[' :: ("Server thread/INFO]: ".data ++ (name.data ++ (' ' :: rest.data)))) = true
    have hsplit : ("Server thread/INFO]: ".data : List Char)
        = "Server thread".data ++ ("/INFO]".data ++ ": ".data) := by decide
    have hstep : containsSub "/INFO]".data
        ("Server thread/INFO]: ".data ++ (name.data ++ (' ' :: rest.data))) = true := by
      rw [hsplit, List.append_assoc]
      refine containsSub_append_right _ _ _ ?_
      rw [List.append_assoc]
      exact containsSub_of_head _ _ (isPrefixList_append _ _)
    exact containsSub_append_right _ ['[', h1, h2, ':', m1, m2, ':', s1, s2, ']', ' ', '['] _ hstep
  have e1 : pStamp ('[' :: h1 :: h2 :: ':' :: m1 :: m2 :: ':' :: s1 :: s2
      :: ']' :: ' ' :: '[' :: ("Server thread/INFO]: ".data ++ (name.data ++ (' ' :: rest.data))))
      = some ("Server thread/INFO]: ".data ++ (name.data ++ (' ' :: rest.data))) := by
    simp [pStamp, hd1, hd2, hd3, hd4, hd5, hd6]
  have e3 : munch1 isWordCh (name.data ++ (' ' :: rest.data))
      = some (name.data, ' ' :: rest.data) :=
    munch1_split isWordCh name.data ' ' rest.data hword (by decide) hname
  have e4 : dropLit [' '] (' ' :: rest.data) = some rest.data := by
    simp [dropLit]
  have e5 : tryVerbs deathVerbs rest.data = some rest.data :=
    tryVerbs_full deathVerbs rest.data hdot hverb
  have hdeathAt : deathAt ('[' :: h1 :: h2 :: ':' :: m1 :: m2 :: ':' :: s1 :: s2
      :: ']' :: ' ' :: '[' :: ("Server thread/INFO]: ".data ++ (name.data ++ (' ' :: rest.data))))
      = some (name.data, rest.data) := by
    simp only [deathAt, e1, dropLit_append, e3, e4, e5, Option.bind_eq_bind,
      Option.some_bind]
    rfl
  have hdeathRule : deathRule (String.mk ('[' :: h1 :: h2 :: ':' :: m1 :: m2 :: ':' :: s1 :: s2
      :: ']' :: ' ' :: '[' :: ("Server thread/INFO]: ".data ++ (name.data ++ (' ' :: rest.data)))))
      = some ("[INFO] " ++ String.mk name.data ++ " " ++ String.mk rest.data) := by
    show (searchFrom deathAt ('[' :: h1 :: h2 :: ':' :: m1 :: m2 :: ':' :: s1 :: s2
      :: ']' :: ' ' :: '[' :: ("Server thread/INFO]: ".data ++ (name.data ++ (' ' :: rest.data))))).map _
      = _
    rw [searchFrom_head _ _ _ hdeathAt]
    rfl
  rw [strMkData name, strMkData rest] at hdeathRule
  simp only [handleLogLine, hmarker, if_true, hchat, hjoin, hleave, hwelcome, hadv, hdeathRule]

/-- C10, witness: the theorem instantiated at
`[12:34:56] [Server thread/INFO]: Alice washed her hands` — the
remainder `washed her hands` is not a death message grammatically, but
begins with the listed verb `was` as a character prefix, so the line is
relayed as a death event. -/
theorem C10_death_prefix_witness :
    handleLogLine "[12:34:56] [Server thread/INFO]: Alice washed her hands"
      = some ("[INFO] " ++ "Alice" ++ " " ++ "washed her hands") :=
  C10_death_prefix '1' '2' '3' '4' '5' '6' "Alice" "washed her hands"
    rfl rfl rfl rfl rfl rfl (by decide) (by decide)
    ⟨"was", by decide, "hed her hands".data, by decide⟩ (by decide)
    "[12:34:56] [Server thread/INFO]: Alice washed her hands" (by decide)
    (by decide) (by decide) (by decide) (by decide) (by decide)

end Bridge
